import Mathlib

/-!
Shallow embedding of `src/utilities.py` (StockAgent) and verification of its
specification claims.

`get_stock_news` is modelled as a pure function whose outbound HTTP traffic is
made explicit: the model takes the current day (`now`, days since 1970-01-01)
and a `respond` function standing for the network (its `Except.error` case
covers any exception in the `try` block: network error, non-success HTTP
status via `raise_for_status`, or JSON decoding failure).  The model returns
both the list of HTTP requests issued and the Python return value.
-/

/-- A normalized news record `{'source': str, 'content': str}` (lines 114-117). -/
structure NewsItem where
  source : String
  content : String
deriving DecidableEq, Repr

/-- A raw provider news object, restricted to the keys the code reads.
An absent key is `none` (`item.get(k, default)` then yields the default). -/
structure RawItem where
  headline : Option String
  summary : Option String
  source : Option String
deriving DecidableEq, Repr

/-- The single HTTP GET that `get_stock_news` can issue (lines 98-109):
URL, query parameters `symbol`, `from`, `to`, the credential header
`X-Finnhub-Token`, and the timeout in seconds. -/
structure Request where
  url : String
  symbol : String
  fromDate : String
  toDate : String
  token : String
  timeout : Nat
deriving DecidableEq, Repr

/-- Python truthiness of the optional string `finnhub_key` (line 97
`if finnhub_key:`): `None` and the empty string are falsy. -/
def pyTruthy : Option String → Bool
  | none => false
  | some s => s != ""

/-- Python list slice `xs[:k]` for an `int` bound `k`: for `k ≥ 0` the first
`k` elements; for `k < 0` the stop index is `len(xs) + k` clamped at `0`. -/
def pythonTake (k : Int) (xs : List α) : List α :=
  if 0 ≤ k then xs.take k.toNat else xs.take (xs.length - (-k).toNat)

/-- Zero-pad a natural number to two digits (strftime `%m`, `%d`). -/
def pad2 (n : Nat) : String :=
  if n < 10 then "0" ++ toString n else toString n

/-- Zero-pad a natural number to four digits (strftime `%Y`). -/
def pad4 (n : Nat) : String :=
  if n < 10 then "000" ++ toString n
  else if n < 100 then "00" ++ toString n
  else if n < 1000 then "0" ++ toString n
  else toString n

/-- Proleptic Gregorian `(year, month, day)` from a count of days since
1970-01-01 (the civil-from-days algorithm). -/
def civilFromDays (z0 : Nat) : Nat × Nat × Nat :=
  let z := z0 + 719468
  let era := z / 146097
  let doe := z % 146097
  let yoe := (doe - doe / 1460 + doe / 36524 - doe / 146096) / 365
  let y := yoe + era * 400
  let doy := doe - (365 * yoe + yoe / 4 - yoe / 100)
  let mp := (5 * doy + 2) / 153
  let d := doy - (153 * mp + 2) / 5 + 1
  let m := if mp < 10 then mp + 3 else mp - 9
  if m ≤ 2 then (y + 1, m, d) else (y, m, d)

/-- `datetime.strftime('%Y-%m-%d')` on a day number (lines 99-100). -/
def fmtYMD (z : Nat) : String :=
  let ymd := civilFromDays z
  pad4 ymd.1 ++ "-" ++ pad2 ymd.2.1 ++ "-" ++ pad2 ymd.2.2

/-- Python `str.upper()` (line 92), character by character.  `Char.toUpper`
maps the ASCII letters `a`-`z` to `A`-`Z` and fixes everything else, which is
`str.upper()` on ASCII ticker symbols. -/
def pyUpper (s : String) : String :=
  ⟨s.data.map Char.toUpper⟩

/-- The Finnhub company-news endpoint (lines 98 and 107). -/
def newsUrl : String := "https://finnhub.io/api/v1/company-news"

/-- Line 113: `content = f"{item.get('headline', '')}. {item.get('summary', '')}"`. -/
def buildContent (item : RawItem) : String :=
  item.headline.getD "" ++ ". " ++ item.summary.getD ""

/-- One iteration of the normalization loop (lines 112-117): build the
`{'source': ..., 'content': ...}` record appended to `all_news`. -/
def normalizeItem (item : RawItem) : NewsItem :=
  { source := item.source.getD "Finnhub", content := buildContent item }

/-- The seen-set guarded deduplication loop (lines 127-132): `seen` is the set
of content strings already emitted, modelled as a list with membership. -/
def dedupGo : List NewsItem → List String → List NewsItem
  | [], _ => []
  | item :: rest, seen =>
    if item.content ∈ seen then dedupGo rest seen
    else item :: dedupGo rest (item.content :: seen)

/-- Lines 127-132 run with `seen = set()` and `unique_news = []`. -/
def dedupByContent (items : List NewsItem) : List NewsItem := dedupGo items []

/-- `get_stock_news` (lines 78-134).  Returns the list of HTTP requests issued
together with the Python result: `Except.ok` a list of news records, or
`Except.error msg` for a returned `{"error": msg}` mapping. -/
def get_stock_news (stock_symbol : String) (finnhub_key : Option String)
    (target_count : Int) (now : Nat)
    (respond : Request → Except String (List RawItem)) :
    List Request × Except String (List NewsItem) :=
  let sym := pyUpper stock_symbol
  if pyTruthy finnhub_key then
    let to_date := fmtYMD now
    let from_date := fmtYMD (now - 7)
    let req : Request :=
      { url := newsUrl, symbol := sym, fromDate := from_date, toDate := to_date,
        token := finnhub_key.getD "", timeout := 10 }
    match respond req with
    | .error e => ([req], .error ("Error fetching news from Finnhub: " ++ e))
    | .ok data =>
        let all_news := (pythonTake target_count data).map normalizeItem
        if all_news.isEmpty then
          ([req],
            .error "No news found for the given stock symbol. Check if the symbol is correct.")
        else
          ([req], .ok (pythonTake target_count (dedupByContent all_news)))
  else
    ([], .error "Finnhub API key is required to fetch stock news.")

/-- `get_stock_news` with the final `unique_news[:target_count]` slice of line
134 removed, used to compare the two (claim C9). -/
def get_stock_news_noslice (stock_symbol : String) (finnhub_key : Option String)
    (target_count : Int) (now : Nat)
    (respond : Request → Except String (List RawItem)) :
    List Request × Except String (List NewsItem) :=
  let sym := pyUpper stock_symbol
  if pyTruthy finnhub_key then
    let to_date := fmtYMD now
    let from_date := fmtYMD (now - 7)
    let req : Request :=
      { url := newsUrl, symbol := sym, fromDate := from_date, toDate := to_date,
        token := finnhub_key.getD "", timeout := 10 }
    match respond req with
    | .error e => ([req], .error ("Error fetching news from Finnhub: " ++ e))
    | .ok data =>
        let all_news := (pythonTake target_count data).map normalizeItem
        if all_news.isEmpty then
          ([req],
            .error "No news found for the given stock symbol. Check if the symbol is correct.")
        else
          ([req], .ok (dedupByContent all_news))
  else
    ([], .error "Finnhub API key is required to fetch stock news.")

/-- Outcome of a Python call: a value returned normally, or an exception
propagating out of the call. -/
inductive PyOutcome (α : Type) where
  | returns : α → PyOutcome α
  | raises : String → PyOutcome α
deriving DecidableEq, Repr

/-- `get_closing_prices` (lines 32-57), with the provider's history table
abstracted to its rows of the `Close` column (timestamp, value pairs).
When the table is empty the source executes `raise {"error": ...}` (line 57)
— a `raise` statement, so the call raises instead of returning (in CPython it
raises `TypeError`, a `dict` not being a `BaseException`; either way an
exception propagates and no error value is returned). -/
def get_closing_prices (hist_close : List (Nat × Int)) :
    PyOutcome (List (Nat × Int)) :=
  if hist_close.isEmpty then
    .raises "No historical data found for the given ticker and parameters."
  else
    .returns hist_close

/-- First-occurrence deduplication, stated as the spec words it: keep an item
exactly when no earlier item has the same `content`; later duplicates of a
kept item's content are dropped. -/
def specDedup : List NewsItem → List NewsItem
  | [] => []
  | x :: xs => x :: specDedup (xs.filter fun y => y.content != x.content)
termination_by l => l.length
decreasing_by
  simp only [List.length_cons]
  exact Nat.lt_succ_of_le (List.length_filter_le _ _)

/-! ### Helper lemmas -/

theorem pythonTake_nonneg {k : Int} (h : 0 ≤ k) (xs : List α) :
    pythonTake k xs = xs.take k.toNat := by
  simp [pythonTake, h]

theorem pythonTake_nonneg_length_le {k : Int} (h : 0 ≤ k) (xs : List α) :
    (pythonTake k xs).length ≤ k.toNat := by
  rw [pythonTake_nonneg h]
  simp [List.length_take]

theorem pythonTake_nil (k : Int) : pythonTake k ([] : List α) = [] := by
  simp [pythonTake]

theorem dedupGo_sublist (xs : List NewsItem) (seen : List String) :
    (dedupGo xs seen).Sublist xs := by
  induction xs generalizing seen with
  | nil => simp [dedupGo]
  | cons x rest ih =>
    by_cases h : x.content ∈ seen
    · simp only [dedupGo, if_pos h]
      exact (ih seen).cons x
    · simp only [dedupGo, if_neg h]
      exact (ih (x.content :: seen)).cons₂ x

theorem dedupGo_length_le (xs : List NewsItem) (seen : List String) :
    (dedupGo xs seen).length ≤ xs.length :=
  (dedupGo_sublist xs seen).length_le

/-- Every content string in the output of `dedupGo` occurs in the input and
was not in the `seen` accumulator. -/
theorem dedupGo_content_mem (xs : List NewsItem) (seen : List String) (c : String) :
    c ∈ (dedupGo xs seen).map (fun i => i.content) ↔
      c ∈ xs.map (fun i => i.content) ∧ c ∉ seen := by
  induction xs generalizing seen with
  | nil => simp [dedupGo]
  | cons x rest ih =>
    by_cases h : x.content ∈ seen
    · simp only [dedupGo, if_pos h, ih, List.map_cons, List.mem_cons]
      constructor
      · exact fun ⟨h1, h2⟩ => ⟨Or.inr h1, h2⟩
      · rintro ⟨rfl | h1, h2⟩
        · exact absurd h h2
        · exact ⟨h1, h2⟩
    · simp only [dedupGo, if_neg h, ih, List.map_cons, List.mem_cons]
      constructor
      · rintro (rfl | ⟨h1, h2⟩)
        · exact ⟨Or.inl rfl, h⟩
        · exact ⟨Or.inr h1, fun hc => h2 (Or.inr hc)⟩
      · rintro ⟨rfl | h1, h2⟩
        · exact Or.inl rfl
        · rcases eq_or_ne c x.content with rfl | hne
          · exact Or.inl rfl
          · exact Or.inr ⟨h1, fun hc => hc.elim hne h2⟩

/-- The contents emitted by `dedupGo` are pairwise distinct. -/
theorem dedupGo_content_nodup (xs : List NewsItem) (seen : List String) :
    ((dedupGo xs seen).map (fun i => i.content)).Nodup := by
  induction xs generalizing seen with
  | nil => simp [dedupGo]
  | cons x rest ih =>
    by_cases h : x.content ∈ seen
    · simpa only [dedupGo, if_pos h] using ih seen
    · simp only [dedupGo, if_neg h, List.map_cons, List.nodup_cons]
      refine ⟨fun hmem => ?_, ih (x.content :: seen)⟩
      exact ((dedupGo_content_mem _ _ _).mp hmem).2 (List.mem_cons_self _ _)

/-- The source's seen-set loop computes exactly the spec's first-occurrence
deduplication of the items whose content is not yet in `seen`. -/
theorem dedupGo_eq_specDedup (xs : List NewsItem) (seen : List String) :
    dedupGo xs seen = specDedup (xs.filter fun y => decide (y.content ∉ seen)) := by
  induction xs generalizing seen with
  | nil => simp [dedupGo, specDedup]
  | cons x rest ih =>
    by_cases h : x.content ∈ seen
    · simp only [dedupGo, if_pos h, List.filter_cons]
      rw [ih]
      congr 1
      simp [h]
    · simp only [dedupGo, if_neg h, List.filter_cons]
      have hx : (decide (x.content ∉ seen)) = true := by simp [h]
      rw [if_pos hx, specDedup, ih]
      congr 1
      refine congrArg specDedup ?_
      rw [List.filter_filter]
      refine List.filter_congr fun y _ => ?_
      by_cases hy : y.content = x.content
      · simp [hy, List.mem_cons]
      · by_cases hs : y.content ∈ seen <;> simp [hy, hs, List.mem_cons, bne]

theorem dedupByContent_eq_specDedup (xs : List NewsItem) :
    dedupByContent xs = specDedup xs := by
  rw [dedupByContent, dedupGo_eq_specDedup]
  congr 1
  simp

/-- Inversion for the success path: whenever the credential is truthy, the
fetch yields `data`, and the call returns a list, that list is the sliced
deduplication of the normalized items built from `data[:target_count]`. -/
theorem get_stock_news_ok_inv (sym : String) (key : Option String) (tc : Int)
    (now : Nat) (respond : Request → Except String (List RawItem))
    (data : List RawItem) (l : List NewsItem)
    (hk : pyTruthy key = true) (hresp : ∀ r, respond r = Except.ok data)
    (hok : (get_stock_news sym key tc now respond).2 = Except.ok l) :
    l = pythonTake tc (dedupByContent ((pythonTake tc data).map normalizeItem)) := by
  by_cases h : ((pythonTake tc data).map normalizeItem).isEmpty
  · simp [get_stock_news, hk, hresp, h] at hok
  · simp [get_stock_news, hk, hresp, h] at hok
    exact hok.symm

/-- On the truthy-credential path exactly one request is issued, and it is the
request built at lines 98-107. -/
theorem get_stock_news_fst (sym : String) (key : Option String) (tc : Int)
    (now : Nat) (respond : Request → Except String (List RawItem))
    (hk : pyTruthy key = true) :
    (get_stock_news sym key tc now respond).1 =
      [{ url := newsUrl, symbol := pyUpper sym, fromDate := fmtYMD (now - 7),
         toDate := fmtYMD now, token := key.getD "", timeout := 10 }] := by
  simp only [get_stock_news, hk, if_true]
  cases hr : respond _ with
  | error e => rfl
  | ok data =>
    by_cases h : ((pythonTake tc data).map normalizeItem).isEmpty <;> simp [h]

/-! ### Claims -/

/-- C1: for every successful call of `get_stock_news` (truthy credential,
provider response fetched, `target_count` positive per the spec's input
contract), the returned sequence is the first-occurrence deduplication by
exact content string of the normalized items built from the provider
response: it equals `specDedup` of the built items, its content strings are
pairwise distinct, it is a subsequence of the built items (entries appear in
first-seen order), and it has an entry with content `c` exactly when some
built item has content `c`. -/
theorem C1_first_occurrence_dedup (sym : String) (key : Option String)
    (tc : Int) (now : Nat) (respond : Request → Except String (List RawItem))
    (data : List RawItem) (l : List NewsItem)
    (hk : pyTruthy key = true) (htc : 0 < tc)
    (hresp : ∀ r, respond r = Except.ok data)
    (hok : (get_stock_news sym key tc now respond).2 = Except.ok l) :
    l = specDedup ((pythonTake tc data).map normalizeItem) ∧
    (l.map fun i => i.content).Nodup ∧
    l.Sublist ((pythonTake tc data).map normalizeItem) ∧
    ∀ c, (c ∈ l.map fun i => i.content) ↔
      c ∈ ((pythonTake tc data).map normalizeItem).map fun i => i.content := by
  have hl := get_stock_news_ok_inv sym key tc now respond data l hk hresp hok
  have hlen : (dedupByContent ((pythonTake tc data).map normalizeItem)).length
      ≤ tc.toNat := by
    calc (dedupByContent ((pythonTake tc data).map normalizeItem)).length
        ≤ ((pythonTake tc data).map normalizeItem).length := dedupGo_length_le _ _
      _ = (pythonTake tc data).length := List.length_map _ _
      _ ≤ tc.toNat := pythonTake_nonneg_length_le htc.le _
  have hslice : l = dedupByContent ((pythonTake tc data).map normalizeItem) := by
    rw [hl, pythonTake_nonneg htc.le]
    exact List.take_of_length_le hlen
  refine ⟨hslice.trans (dedupByContent_eq_specDedup _), ?_, ?_, ?_⟩
  · rw [hslice]
    exact dedupGo_content_nodup _ _
  · rw [hslice]
    exact dedupGo_sublist _ _
  · intro c
    rw [hslice]
    have := dedupGo_content_mem ((pythonTake tc data).map normalizeItem) [] c
    simpa [dedupByContent] using this

/-- The raw items of the spec's order-preservation example: contents
`[A, B, A, C]` by headline. -/
def c1Data : List RawItem :=
  [{ headline := some "A", summary := none, source := none },
   { headline := some "B", summary := none, source := none },
   { headline := some "A", summary := none, source := none },
   { headline := some "C", summary := none, source := none }]

/-- Witness for C1 on the `[A, B, A, C]` example: the call returns
`[A, B, C]` (by content), which is its first-occurrence deduplication. -/
theorem C1_first_occurrence_dedup_witness :
    pyTruthy (some "k") = true ∧ (0 : Int) < 10 ∧
    (get_stock_news "A" (some "k") 10 0 fun _ => Except.ok c1Data).2 =
      Except.ok [{ source := "Finnhub", content := "A. " },
                 { source := "Finnhub", content := "B. " },
                 { source := "Finnhub", content := "C. " }] ∧
    ([{ source := "Finnhub", content := "A. " },
      { source := "Finnhub", content := "B. " },
      { source := "Finnhub", content := "C. " }] : List NewsItem) =
      specDedup ((pythonTake 10 c1Data).map normalizeItem) :=
  ⟨rfl, by norm_num, rfl,
    (C1_first_occurrence_dedup "A" (some "k") 10 0 (fun _ => Except.ok c1Data)
      c1Data
      [{ source := "Finnhub", content := "A. " },
       { source := "Finnhub", content := "B. " },
       { source := "Finnhub", content := "C. " }]
      rfl (by norm_num) (fun _ => rfl) rfl).1⟩

/-- C2: for every successful call with positive `target_count`, the returned
sequence has at most `target_count` entries. -/
theorem C2_truncation (sym : String) (key : Option String) (tc : Int)
    (now : Nat) (respond : Request → Except String (List RawItem))
    (data : List RawItem) (l : List NewsItem)
    (hk : pyTruthy key = true) (htc : 0 < tc)
    (hresp : ∀ r, respond r = Except.ok data)
    (hok : (get_stock_news sym key tc now respond).2 = Except.ok l) :
    l.length ≤ tc.toNat := by
  rw [get_stock_news_ok_inv sym key tc now respond data l hk hresp hok,
    pythonTake_nonneg htc.le]
  simp [List.length_take]

/-- Five raw items with pairwise-distinct content, for the truncation
scenario of C2. -/
def fiveDistinct : List RawItem :=
  [{ headline := some "h1", summary := none, source := none },
   { headline := some "h2", summary := none, source := none },
   { headline := some "h3", summary := none, source := none },
   { headline := some "h4", summary := none, source := none },
   { headline := some "h5", summary := none, source := none }]

/-- Witness for C2: `target_count = 2` and 5 pairwise-distinct items yield
exactly the first two encountered, of length at most 2. -/
theorem C2_truncation_witness :
    pyTruthy (some "k") = true ∧ (0 : Int) < 2 ∧
    (get_stock_news "A" (some "k") 2 0 fun _ => Except.ok fiveDistinct).2 =
      Except.ok [{ source := "Finnhub", content := "h1. " },
                 { source := "Finnhub", content := "h2. " }] ∧
    ([{ source := "Finnhub", content := "h1. " },
      { source := "Finnhub", content := "h2. " }] : List NewsItem).length ≤
      (2 : Int).toNat :=
  ⟨rfl, by norm_num, rfl,
    C2_truncation "A" (some "k") 2 0 (fun _ => Except.ok fiveDistinct)
      fiveDistinct _ rfl (by norm_num) (fun _ => rfl) rfl⟩

/-- C3: with an absent (`None`) or empty credential, `get_stock_news` returns
the structured missing-key error and issues no HTTP request at all. -/
theorem C3_missing_credential (sym : String) (key : Option String) (tc : Int)
    (now : Nat) (respond : Request → Except String (List RawItem))
    (hk : key = none ∨ key = some "") :
    (get_stock_news sym key tc now respond).1 = [] ∧
    (get_stock_news sym key tc now respond).2 =
      Except.error "Finnhub API key is required to fetch stock news." := by
  rcases hk with rfl | rfl <;> exact ⟨rfl, rfl⟩

/-- Witness for C3 at an absent credential. -/
theorem C3_missing_credential_witness :
    ((none : Option String) = none ∨ (none : Option String) = some "") ∧
    (get_stock_news "AAPL" none 100 20000 fun _ => Except.ok fiveDistinct).1 = [] ∧
    (get_stock_news "AAPL" none 100 20000 fun _ => Except.ok fiveDistinct).2 =
      Except.error "Finnhub API key is required to fetch stock news." :=
  ⟨Or.inl rfl,
    C3_missing_credential "AAPL" none 100 20000 (fun _ => Except.ok fiveDistinct)
      (Or.inl rfl)⟩

/-- C4: when the provider responds successfully with zero items, the result
is the structured "No news found" error, never an empty success list. -/
theorem C4_empty_upstream (sym : String) (key : Option String) (tc : Int)
    (now : Nat) (respond : Request → Except String (List RawItem))
    (hk : pyTruthy key = true) (hresp : ∀ r, respond r = Except.ok []) :
    (get_stock_news sym key tc now respond).2 =
      Except.error
        "No news found for the given stock symbol. Check if the symbol is correct." := by
  simp [get_stock_news, hk, hresp, pythonTake_nil]

/-- Witness for C4. -/
theorem C4_empty_upstream_witness :
    pyTruthy (some "k") = true ∧
    (get_stock_news "TSLA" (some "k") 100 20000 fun _ => Except.ok []).2 =
      Except.error
        "No news found for the given stock symbol. Check if the symbol is correct." :=
  ⟨rfl, C4_empty_upstream "TSLA" (some "k") 100 20000 (fun _ => Except.ok [])
    rfl (fun _ => rfl)⟩

/-- C5, evaluated at the failing input: on an empty history table
`get_closing_prices` raises (line 57 is a `raise` statement) instead of
returning an error-shaped mapping, contradicting the repo's stated
error-as-value convention. -/
theorem C5_closing_prices_raises_on_empty :
    get_closing_prices [] =
      PyOutcome.raises
        "No historical data found for the given ticker and parameters." := rfl

/-- C6: a raw item missing `headline`, `summary`, or both, normalizes with
the empty string for each missing part in `content = "{headline}. {summary}"`
(and `normalizeItem` is total, so no exception occurs). -/
theorem C6_missing_fields (hd s : String) (src : Option String) :
    (normalizeItem { headline := none, summary := some s, source := src }).content =
      ". " ++ s ∧
    (normalizeItem { headline := some hd, summary := none, source := src }).content =
      hd ++ ". " ∧
    (normalizeItem { headline := none, summary := none, source := src }).content =
      ". " := by
  refine ⟨?_, ?_, ?_⟩ <;> simp [normalizeItem, buildContent]

/-- The provider response of the C7 scenario: two identical raw items with
headline `X`, summary `y`, and no source field. -/
def c7Respond : Request → Except String (List RawItem) :=
  fun _ => Except.ok
    [{ headline := some "X", summary := some "y", source := none },
     { headline := some "X", summary := some "y", source := none }]

/-- C7: with input symbol `aapl`, `target_count = 10`, and the two-duplicate
provider response, the call returns exactly one record
`{source: Finnhub, content: X. y}`, and the issued request carries the
symbol normalized to `AAPL`. -/
theorem C7_scenario :
    (get_stock_news "aapl" (some "key") 10 20000 c7Respond).2 =
      Except.ok [{ source := "Finnhub", content := "X. y" }] ∧
    (get_stock_news "aapl" (some "key") 10 20000 c7Respond).1.map Request.symbol =
      ["AAPL"] :=
  ⟨rfl, by decide⟩

/-- C8: with a non-empty credential, exactly one HTTP GET is issued, to the
company-news endpoint, with the uppercased symbol, `from` the formatted date
7 days before `now`, `to` the formatted `now` (both via the `%Y-%m-%d`
formatter `fmtYMD`), the credential as the header token, and a 10-second
timeout. -/
theorem C8_single_request (sym : String) (key : String) (tc : Int) (now : Nat)
    (respond : Request → Except String (List RawItem)) (hk : key ≠ "") :
    (get_stock_news sym (some key) tc now respond).1 =
      [{ url := newsUrl, symbol := pyUpper sym, fromDate := fmtYMD (now - 7),
         toDate := fmtYMD now, token := key, timeout := 10 }] := by
  have hk' : pyTruthy (some key) = true := by simp [pyTruthy, hk]
  simpa using get_stock_news_fst sym (some key) tc now respond hk'

/-- Witness for C8 at `now = 19730` (2024-01-08): the single request carries
`from = 2024-01-01` and `to = 2024-01-08`. -/
theorem C8_single_request_witness :
    ("k" : String) ≠ "" ∧
    (get_stock_news "msft" (some "k") 100 19730 fun _ => Except.ok []).1 =
      [{ url := newsUrl, symbol := "MSFT", fromDate := "2024-01-01",
         toDate := "2024-01-08", token := "k", timeout := 10 }] :=
  ⟨by decide,
    by
      rw [C8_single_request "msft" "k" 100 19730 (fun _ => Except.ok [])
        (by decide)]
      decide⟩

/-- The provider response of the C9 counterexample: two raw items with
distinct contents. -/
def c9Respond : Request → Except String (List RawItem) :=
  fun _ => Except.ok
    [{ headline := some "a", summary := none, source := none },
     { headline := some "b", summary := none, source := none }]

/-- C9 counterexample: at `target_count = -1` (a possible Python `int`
argument) the two variants differ — `data[:-1]` keeps one item so the
deduplicated list has one entry, and the final `unique_news[:-1]` slice then
removes it, so the sliced function returns an empty success list while the
unsliced one returns that entry.  Hence the slice is not redundant for every
input. -/
theorem C9_counterexample :
    (get_stock_news "A" (some "k") (-1) 0 c9Respond).2 = Except.ok [] ∧
    (get_stock_news_noslice "A" (some "k") (-1) 0 c9Respond).2 =
      Except.ok [{ source := "Finnhub", content := "a. " }] ∧
    (get_stock_news "A" (some "k") (-1) 0 c9Respond).2 ≠
      (get_stock_news_noslice "A" (some "k") (-1) 0 c9Respond).2 := by
  have h1 : (get_stock_news "A" (some "k") (-1) 0 c9Respond).2 =
      Except.ok [] := rfl
  have h2 : (get_stock_news_noslice "A" (some "k") (-1) 0 c9Respond).2 =
      Except.ok [{ source := "Finnhub", content := "a. " }] := rfl
  refine ⟨h1, h2, ?_⟩
  rw [h1, h2]
  intro h
  injection h with h3
  exact List.noConfusion h3

/-- C9 amended: for every nonnegative `target_count`, at most `target_count`
raw items are consumed before deduplication, so the deduplicated list never
exceeds `target_count` entries and the final slice removes nothing:
`get_stock_news` with and without the final slice coincide. -/
theorem C9_slice_redundant (sym : String) (key : Option String) (tc : Int)
    (now : Nat) (respond : Request → Except String (List RawItem))
    (htc : 0 ≤ tc) :
    get_stock_news sym key tc now respond =
      get_stock_news_noslice sym key tc now respond := by
  simp only [get_stock_news, get_stock_news_noslice]
  cases hk : pyTruthy key with
  | false => rfl
  | true =>
    simp only [if_true]
    cases hr : respond _ with
    | error e => rfl
    | ok data =>
      by_cases he : ((pythonTake tc data).map normalizeItem).isEmpty
      · simp [he]
      · have hlen : (dedupByContent ((pythonTake tc data).map normalizeItem)).length
            ≤ tc.toNat := by
          calc (dedupByContent ((pythonTake tc data).map normalizeItem)).length
              ≤ ((pythonTake tc data).map normalizeItem).length :=
                dedupGo_length_le _ _
            _ = (pythonTake tc data).length := List.length_map _ _
            _ ≤ tc.toNat := pythonTake_nonneg_length_le htc _
        have hx : pythonTake tc
              (dedupByContent ((pythonTake tc data).map normalizeItem)) =
            dedupByContent ((pythonTake tc data).map normalizeItem) := by
          rw [pythonTake_nonneg htc]
          exact List.take_of_length_le hlen
        simp [he, hx]

/-- Witness for the amended C9 at `target_count = 3`. -/
theorem C9_slice_redundant_witness :
    (0 : Int) ≤ 3 ∧
    get_stock_news "A" (some "k") 3 0 c9Respond =
      get_stock_news_noslice "A" (some "k") 3 0 c9Respond :=
  ⟨by norm_num, C9_slice_redundant "A" (some "k") 3 0 c9Respond (by norm_num)⟩

/-- C10: with `target_count = 0` and a non-empty, successfully fetched
provider response, zero items are taken before the emptiness check, so the
call returns the "No news found" structured error rather than an empty
success list. -/
theorem C10_zero_target (sym : String) (key : Option String) (now : Nat)
    (respond : Request → Except String (List RawItem)) (data : List RawItem)
    (hk : pyTruthy key = true) (_hd : data ≠ [])
    (hresp : ∀ r, respond r = Except.ok data) :
    (get_stock_news sym key 0 now respond).2 =
      Except.error
        "No news found for the given stock symbol. Check if the symbol is correct." := by
  simp [get_stock_news, hk, hresp, pythonTake]

/-- Witness for C10 at a non-empty provider response. -/
theorem C10_zero_target_witness :
    pyTruthy (some "k") = true ∧ fiveDistinct ≠ [] ∧
    (get_stock_news "AAPL" (some "k") 0 20000 fun _ => Except.ok fiveDistinct).2 =
      Except.error
        "No news found for the given stock symbol. Check if the symbol is correct." :=
  ⟨rfl, by simp [fiveDistinct],
    C10_zero_target "AAPL" (some "k") 20000 (fun _ => Except.ok fiveDistinct)
      fiveDistinct rfl (by simp [fiveDistinct]) (fun _ => rfl)⟩
